import Mathlib

set_option maxHeartbeats 1000000
set_option maxRecDepth 100000

/-!
Verification development for the SEO log-file analyser (`src/app.py`).

The Python source is shallowly embedded below:
  * strings are `String` / `List Char`;
  * the combined-log regular expression `LOG_PATTERN` together with Python's
    leftmost backtracking `re.match` semantics is embedded as a small token
    language with a CPS backtracking matcher;
  * `datetime.strptime(s, "%d/%b/%Y:%H:%M:%S %z")` is embedded as an
    executable validator/parser for exactly that format;
  * the external `user_agents.parse` library is abstracted as a function
    parameter `uaParse : String → Bool × String` returning
    `(ua.is_bot, ua.browser.family)`;
  * pandas dataframe operations used by `main` (boolean-mask filtering,
    `value_counts`, `head`, `sort_values`, `len`, `shape[0]`) are embedded
    as list operations.
-/

/-! ### Python string containment (`needle in haystack`) -/

/-- Boolean test that the first list is a leading segment of the second. -/
def listPrefixOf : List Char → List Char → Bool
  | [], _ => true
  | _ :: _, [] => false
  | a :: as, b :: bs => a == b && listPrefixOf as bs

/-- Boolean test that `pat` occurs contiguously inside the second list. -/
def listInfixOf (pat : List Char) : List Char → Bool
  | [] => listPrefixOf pat []
  | c :: cs => listPrefixOf pat (c :: cs) || listInfixOf pat cs

/-- Python's substring operator `pat in hay` on strings. -/
def containsSub (hay pat : String) : Bool := listInfixOf pat.data hay.data

/-! ### Data model -/

/-- A Python `datetime.date`: calendar components only. -/
structure PyDate where
  year : Nat
  month : Nat
  day : Nat
deriving DecidableEq, Repr

/-- Python `date` ordering: lexicographic on (year, month, day). -/
def PyDate.leb (a b : PyDate) : Bool :=
  a.year < b.year ||
    (a.year == b.year &&
      (a.month < b.month || (a.month == b.month && a.day ≤ b.day)))

/-- A timezone-aware Python `datetime` as produced by
`datetime.strptime(s, "%d/%b/%Y:%H:%M:%S %z")`: wall-clock components plus a
UTC offset in minutes. -/
structure PyDatetime where
  year : Nat
  month : Nat
  day : Nat
  hour : Nat
  minute : Nat
  second : Nat
  tzMinutes : Int
deriving DecidableEq, Repr

/-- One row of the dataframe built by `parse_log_file` (src/app.py lines
212-223) together with the derived columns `date` and `hour` added at lines
237-238.  `date` takes the wall-clock calendar components of `timestamp`
(pandas `.dt.date`), `hour` its wall-clock hour. -/
structure LogRecord where
  timestamp : PyDatetime
  ip_address : String
  method : String
  path : String
  status_code : Nat
  bytes_sent : Nat
  referrer : String
  user_agent : String
  is_bot : Bool
  bot_name : String
  date : PyDate
  hour : Nat
deriving DecidableEq, Repr

/-! ### User-agent classification (src/app.py lines 188-209) -/

/-- Embeds the bot classification inside `parse_log_file` (src/app.py lines
188-209).  The external `user_agents.parse` call is abstracted by `uaParse`,
which returns the pair `(ua.is_bot, ua.browser.family)`.  `is_bot` is taken
from the library verdict alone; `bot_name` is decided by the ordered
signature table first, then by the library verdict. -/
def classify (uaParse : String → Bool × String) (user_agent_str : String) :
    Bool × String :=
  let is_bot := (uaParse user_agent_str).1
  let bot_name :=
    if containsSub user_agent_str "Googlebot" then "Google"
    else if containsSub user_agent_str "Bingbot" then "Bing"
    else if containsSub user_agent_str "Applebot" then "Apple"
    else if containsSub user_agent_str "YandexBot" ||
        containsSub user_agent_str "YandexMobileBot" then "Yandex"
    else if containsSub user_agent_str "DuckDuckBot" then "DuckDuckGo"
    else if containsSub user_agent_str "SEMrushBot" then "SEMRush"
    else if containsSub user_agent_str "OpenLinkProfiler" ||
        containsSub user_agent_str "SiteExplorer" then "OpenSEO"
    else if is_bot then (uaParse user_agent_str).2
    else "Human"
  (is_bot, bot_name)

/-- Summary metric `bot_requests = df[df['is_bot']].shape[0]`
(src/app.py line 291). -/
def bot_requests (df : List LogRecord) : Nat :=
  (df.filter (fun r => r.is_bot)).length

/-- A concrete record whose `bot_name` is "Google" while `is_bot` is false,
as produced for a user agent containing "Googlebot" that the library does not
flag as a bot. -/
def googleNotBotRec : LogRecord :=
  { timestamp := ⟨2025, 8, 1, 10, 0, 1, 0⟩
    ip_address := "1.2.3.4"
    method := "GET"
    path := "/"
    status_code := 200
    bytes_sent := 0
    referrer := "-"
    user_agent := "Googlebot"
    is_bot := false
    bot_name := "Google"
    date := ⟨2025, 8, 1⟩
    hour := 10 }

/-! ### Character classes of the Python regex -/

/-- Python's `\s` class (ASCII part; the pattern only meets ASCII here). -/
def isPySpace (c : Char) : Bool :=
  c == ' ' || c == '\t' || c == '\n' || c == '\r' ||
    c == '\x0b' || c == '\x0c'

/-- Python's `\d` class restricted to ASCII decimal digits. -/
def isDigitChar (c : Char) : Bool := '0' ≤ c && c ≤ '9'

/-- Python's `\w` class: letters, digits, underscore.  (Python also accepts
non-ASCII word characters there, which `strptime`'s `%b` then rejects, so the
overall per-line outcome is unchanged.) -/
def isWordChar (c : Char) : Bool := c.isAlphanum || c == '_'

/-! ### A token language covering exactly the constructs of `LOG_PATTERN`
(src/app.py lines 12-20), with Python's backtracking `re.match`
semantics: alternatives are tried in regex priority order (greedy
quantifiers longest-first, lazy quantifiers shortest-first, alternation
left-first) and the first overall success wins. -/

/-- One regex token.  `lit` is a literal run, `digits lo hi` is
`\d{lo,hi}` (greedy), `digitsPlus` is `\d+` (greedy), `word n` is `\w{n}`,
`spaceOne` is `\s`, `lazyStar` is `.*?`, `lazyPlus` is `.+?` (`.` excludes
newline), `alt` is left-biased alternation. -/
inductive Tok where
  | lit (s : List Char)
  | digits (lo hi : Nat)
  | digitsPlus
  | word (n : Nat)
  | spaceOne
  | lazyStar
  | lazyPlus
  | alt (a b : Tok)
deriving Repr

/-- Consume a literal: returns the rest on success. -/
def matchLit : List Char → List Char → Option (List Char)
  | [], l => some l
  | _ :: _, [] => none
  | p :: ps, c :: cs => if p = c then matchLit ps cs else none

/-- Greedy quantifier driver: try taking `m` characters, then `m - 1`, …,
down to `lo` (longest first), feeding each split to the continuation. -/
def tryTakes (l : List Char) (lo : Nat)
    (k : List Char → List Char → Option σ) : Nat → Option σ
  | 0 => if lo = 0 then k [] l else none
  | m + 1 =>
      (if lo ≤ m + 1 then k (l.take (m + 1)) (l.drop (m + 1)) else none) <|>
        tryTakes l lo k m

/-- Lazy quantifier driver: try the split accumulated so far, then extend it
by one more (non-newline) character — shortest first. -/
def lazyRun (k : List Char → List Char → Option σ) :
    List Char → List Char → Option σ
  | pre, [] => k pre.reverse []
  | pre, c :: cs =>
      k pre.reverse (c :: cs) <|>
        if c == '\n' then none else lazyRun k (c :: pre) cs

/-- Backtracking matcher for one token, in continuation-passing style: the
continuation receives the captured text and the remaining input; the first
alternative (in regex priority order) for which the continuation succeeds
wins. -/
def runTok (t : Tok) (l : List Char)
    (k : List Char → List Char → Option σ) : Option σ :=
  match t with
  | .lit s =>
      match matchLit s l with
      | some r => k s r
      | none => none
  | .digits lo hi => tryTakes l lo k (min hi (l.takeWhile isDigitChar).length)
  | .digitsPlus => tryTakes l 1 k (l.takeWhile isDigitChar).length
  | .word n =>
      if (l.take n).length == n && (l.take n).all isWordChar then
        k (l.take n) (l.drop n)
      else none
  | .spaceOne =>
      match l with
      | [] => none
      | c :: cs => if isPySpace c then k [c] cs else none
  | .lazyStar => lazyRun k [] l
  | .lazyPlus =>
      match l with
      | [] => none
      | c :: cs => if c == '\n' then none else lazyRun k [c] cs
  | .alt a b => runTok a l k <|> runTok b l k

/-- Backtracking matcher for a token sequence; the continuation receives the
per-token captured texts, in order, and the remaining input. -/
def runToks : List Tok → List Char →
    (List (List Char) → List Char → Option σ) → Option σ
  | [], l, k => k [] l
  | t :: ts, l, k =>
      runTok t l fun s r => runToks ts r fun ss r2 => k (s :: ss) r2

/-- The compiled `LOG_PATTERN` (src/app.py lines 12-20) as a token sequence.
Capture groups of the original are reassembled from token captures by
`mkGroups`; fixed-width subpatterns such as `\d{1,3}` or `\d{2}` become
`digits` tokens, literal text becomes `lit` tokens, and the method
alternation `(GET|POST|PUT|DELETE|HEAD)` keeps its order. -/
def LOG_PATTERN : List Tok :=
  [ .digits 1 3, .lit ['.'], .digits 1 3, .lit ['.'],            -- group 1
    .digits 1 3, .lit ['.'], .digits 1 3,                        --   (ipv4)
    .lit (" - - [".data),
    .digits 2 2, .lit ['/'], .word 3, .lit ['/'], .digits 4 4,   -- group 2
    .lit [':'], .digits 2 2, .lit [':'], .digits 2 2,            --   (date,
    .lit [':'], .digits 2 2, .lit [' ', '+'], .digits 4 4,       --   `+` only)
    .lit ("] \"".data),
    .alt (.lit "GET".data) (.alt (.lit "POST".data)              -- group 3
      (.alt (.lit "PUT".data) (.alt (.lit "DELETE".data)
        (.lit "HEAD".data)))),
    .spaceOne,
    .lazyPlus,                                                   -- group 4
    .spaceOne, .lit "HTTP/".data, .digits 1 1, .lit ['.'],
    .digits 1 1, .lit ("\" ".data),
    .digits 3 3,                                                 -- group 5
    .lit [' '],
    .alt .digitsPlus (.lit ['-']),                               -- group 6
    .lit (" \"".data),
    .lazyStar,                                                   -- group 7
    .lit ("\" \"".data),
    .lazyStar,                                                   -- group 8
    .lit ['"'] ]

/-- The eight capture groups of `LOG_PATTERN`. -/
structure LogGroups where
  ip : List Char
  timestamp : List Char
  method : List Char
  path : List Char
  status : List Char
  bytes : List Char
  referrer : List Char
  user_agent : List Char
deriving DecidableEq, Repr

/-- Capture of token `i` in the per-token capture list. -/
def grp (caps : List (List Char)) (i : Nat) : List Char := caps.getD i []

/-- Reassemble the original regex's eight capture groups from the per-token
captures (a capture group spanning several tokens is their concatenation). -/
def mkGroups (caps : List (List Char)) : LogGroups :=
  { ip := grp caps 0 ++ grp caps 1 ++ grp caps 2 ++ grp caps 3 ++
      grp caps 4 ++ grp caps 5 ++ grp caps 6
    timestamp := grp caps 8 ++ grp caps 9 ++ grp caps 10 ++ grp caps 11 ++
      grp caps 12 ++ grp caps 13 ++ grp caps 14 ++ grp caps 15 ++
      grp caps 16 ++ grp caps 17 ++ grp caps 18 ++ grp caps 19 ++ grp caps 20
    method := grp caps 22
    path := grp caps 24
    status := grp caps 31
    bytes := grp caps 33
    referrer := grp caps 35
    user_agent := grp caps 37 }

/-- `LOG_PATTERN.match(line)` (src/app.py line 180): anchored at the start,
free at the end; returns the capture groups and the unconsumed tail. -/
def logMatch (l : List Char) : Option (LogGroups × List Char) :=
  runToks LOG_PATTERN l fun caps rest => some (mkGroups caps, rest)

/-! ### `datetime.strptime(s, "%d/%b/%Y:%H:%M:%S %z")` (src/app.py
lines 21 and 184) -/

/-- Numeric value of a digit list (most significant first). -/
def natOfDigits : List Char → Nat
  | [] => 0
  | c :: cs => (c.toNat - '0'.toNat) * 10 ^ cs.length + natOfDigits cs

/-- `int(s)` on a decimal-digit string; `none` models `ValueError`. -/
def parseNat (s : List Char) : Option Nat :=
  if s ≠ [] && s.all isDigitChar then some (natOfDigits s) else none

/-- Month number of a `%b` abbreviation; Python matches case-insensitively. -/
def monthNum (m : List Char) : Option Nat :=
  let lm := m.map Char.toLower
  if lm = "jan".data then some 1
  else if lm = "feb".data then some 2
  else if lm = "mar".data then some 3
  else if lm = "apr".data then some 4
  else if lm = "may".data then some 5
  else if lm = "jun".data then some 6
  else if lm = "jul".data then some 7
  else if lm = "aug".data then some 8
  else if lm = "sep".data then some 9
  else if lm = "oct".data then some 10
  else if lm = "nov".data then some 11
  else if lm = "dec".data then some 12
  else none

/-- Gregorian leap year, as in Python's `calendar`/`datetime`. -/
def isLeapYear (y : Nat) : Bool :=
  (y % 4 == 0 && y % 100 != 0) || y % 400 == 0

/-- Day count of a month, as validated by the `datetime` constructor. -/
def daysInMonth (y m : Nat) : Nat :=
  if m = 2 then (if isLeapYear y then 29 else 28)
  else if m = 4 || m = 6 || m = 9 || m = 11 then 30
  else 31

/-- `datetime.strptime(s, "%d/%b/%Y:%H:%M:%S %z")`, specialized to the
fixed-width strings the surrounding regex can produce
(`dd/www/dddd:dd:dd:dd ±dddd`); any other shape fails.  Beyond the shape it
enforces exactly what Python enforces on such strings: a real month
abbreviation (`%b`), day within the month and at least 1 (the `datetime`
constructor), year at least 1, hour ≤ 23, minute ≤ 59, second ≤ 59, and a
UTC offset strictly less than 24 hours (`timezone`). -/
def strptimeLog (s : List Char) : Option PyDatetime :=
  match s with
  | [d1, d2, '/', m1, m2, m3, '/', y1, y2, y3, y4, ':', h1, h2, ':',
      n1, n2, ':', s1, s2, ' ', sgn, z1, z2, z3, z4] =>
      if ([d1, d2, y1, y2, y3, y4, h1, h2, n1, n2, s1, s2,
            z1, z2, z3, z4].all isDigitChar) then
        match monthNum [m1, m2, m3] with
        | none => none
        | some mon =>
            let day := natOfDigits [d1, d2]
            let year := natOfDigits [y1, y2, y3, y4]
            let hour := natOfDigits [h1, h2]
            let minute := natOfDigits [n1, n2]
            let second := natOfDigits [s1, s2]
            let offMin := 60 * natOfDigits [z1, z2] + natOfDigits [z3, z4]
            if 1 ≤ day && day ≤ daysInMonth year mon && 1 ≤ year &&
                hour ≤ 23 && minute ≤ 59 && second ≤ 59 && offMin < 1440 &&
                (sgn == '+' || sgn == '-') then
              some ⟨year, mon, day, hour, minute, second,
                if sgn == '-' then -(offMin : Int) else (offMin : Int)⟩
            else none
      else none
  | _ => none

/-! ### The per-line parse and the parse loop (src/app.py lines 178-228) -/

/-- Python `line.strip()` (ASCII whitespace, as met here). -/
def pyStrip (l : List Char) : List Char :=
  ((l.dropWhile isPySpace).reverse.dropWhile isPySpace).reverse

/-- The body of the parse loop for one line after stripping (src/app.py
lines 180-223): match `LOG_PATTERN`, convert the date, status and byte
fields, classify the user agent, and build the row; any failure (no regex
match, or a failed conversion, caught by the `except` clause at line 224)
yields no record. -/
def parseStripped (uaParse : String → Bool × String) (stripped : List Char) :
    Option LogRecord :=
  match logMatch stripped with
  | none => none
  | some (g, _) =>
      match strptimeLog g.timestamp with
      | none => none
      | some ts =>
          match parseNat g.status with
          | none => none
          | some st =>
              match (if g.bytes = ['-'] then some 0 else parseNat g.bytes) with
              | none => none
              | some nb =>
                  let cls := classify uaParse (String.mk g.user_agent)
                  some { timestamp := ts
                         ip_address := String.mk g.ip
                         method := String.mk g.method
                         path := String.mk g.path
                         status_code := st
                         bytes_sent := nb
                         referrer := String.mk g.referrer
                         user_agent := String.mk g.user_agent
                         is_bot := cls.1
                         bot_name := cls.2
                         date := ⟨ts.year, ts.month, ts.day⟩
                         hour := ts.hour }

/-- One iteration of the parse loop (src/app.py lines 179-226):
`LOG_PATTERN.match(line.strip())` and the conversions that follow. -/
def parseLine (uaParse : String → Bool × String) (line : List Char) :
    Option LogRecord :=
  parseStripped uaParse (pyStrip line)

/-- The guaranteed shape of one token's captured text. -/
def TokShape : Tok → List Char → Prop
  | .lit s, cap => cap = s
  | .digits lo hi, cap =>
      cap.all isDigitChar = true ∧ lo ≤ cap.length ∧ cap.length ≤ hi
  | .digitsPlus, cap => cap.all isDigitChar = true ∧ cap ≠ []
  | .word n, cap => cap.all isWordChar = true ∧ cap.length = n
  | .spaceOne, cap => ∃ c, cap = [c] ∧ isPySpace c = true
  | .lazyStar, cap => cap.all (fun c => !(c == '\n')) = true
  | .lazyPlus, cap => cap.all (fun c => !(c == '\n')) = true ∧ cap ≠ []
  | .alt a b, cap => TokShape a cap ∨ TokShape b cap

/-- The parse loop of `parse_log_file` (src/app.py lines 178-228): each line
is tried independently; a line that fails contributes nothing and the loop
continues with the next line. -/
def parse_log_file (uaParse : String → Bool × String) :
    List (List Char) → List LogRecord
  | [] => []
  | l :: ls =>
      match parseLine uaParse l with
      | some r => r :: parse_log_file uaParse ls
      | none => parse_log_file uaParse ls

/-! ### Ingest outcome (src/app.py lines 232-234 and 501-502) -/

/-- The user-visible outcome of `parse_log_file` at file level: either the
`st.error` branch for zero records (line 233, returning an empty frame), or
the parsed records. -/
inductive IngestOutcome where
  | noValidEntries (message : String)
  | loaded (records : List LogRecord)
deriving DecidableEq

/-- The `st.error` text at src/app.py line 233. -/
def NO_VALID_MESSAGE : String :=
  "No valid log entries found. Please ensure the log file is in a combined log format."

/-- The `st.warning` text at src/app.py line 502, shown when a filter matches
zero records. -/
def NO_FILTER_MATCH_MESSAGE : String := "No data matches the selected filters."

/-- File-level result of `parse_log_file` (src/app.py lines 232-239): an
explicit "no valid entries" state when no line parsed, the records
otherwise. -/
def ingest (uaParse : String → Bool × String) (lines : List (List Char)) :
    IngestOutcome :=
  let data := parse_log_file uaParse lines
  if data = [] then .noValidEntries NO_VALID_MESSAGE else .loaded data

/-! ### Filtering (src/app.py lines 313-355) -/

/-- The filter widgets' values: date bounds plus the bot and status
selections, where `none` stands for the "All Traffic" / "All Status Codes"
choices. -/
structure FilterCriteria where
  start_date : PyDate
  end_date : PyDate
  bot_filter : Option String
  status_filter : Option Nat
deriving DecidableEq

/-- The filter expression evaluated on button click (src/app.py lines
338-347): date range inclusive on both ends, then equality on `bot_name`
unless "All Traffic", then equality on `status_code` unless "All Status
Codes". -/
def applyFiltersExpr (df : List LogRecord) (c : FilterCriteria) :
    List LogRecord :=
  let d1 := df.filter fun r =>
    PyDate.leb c.start_date r.date && PyDate.leb r.date c.end_date
  let d2 := match c.bot_filter with
    | some b => d1.filter fun r => r.bot_name == b
    | none => d1
  match c.status_filter with
  | some s => d2.filter fun r => r.status_code == s
  | none => d2

/-- The value of `filtered_df` actually used for display and export after the
"Apply Filters" button is clicked (src/app.py lines 334-355): lines 338-347
store the filtered frame in `st.session_state.filtered_df`, but the guard at
line 350 (`if 'filtered_df' not in st.session_state or apply_filters`) is
also true on that very run, so line 352 overwrites the session state with
`df.copy()` before line 355 reads it back. -/
def displayedAfterApply (df : List LogRecord) (c : FilterCriteria) :
    List LogRecord :=
  let _sessionFiltered := applyFiltersExpr df c
  df

/-! ### Aggregation views (src/app.py lines 290-292, 388, 414, 451) -/

/-- Keys of a list in first-seen order, with explicit fuel so the recursion
is structural (the fuel never runs out when it starts at the length). -/
def firstSeenKeysF {α : Type} [DecidableEq α] : Nat → List α → List α
  | _, [] => []
  | 0, _ :: _ => []
  | n + 1, a :: t => a :: firstSeenKeysF n (t.filter fun x => !(x == a))

/-- Keys of a list in first-seen order (the key order pandas' hash-based
counting produces before sorting). -/
def firstSeenKeys {α : Type} [DecidableEq α] (l : List α) : List α :=
  firstSeenKeysF l.length l

/-- Insert `a` into `l` after every element `b` with `le b a`: the insertion
step of a stable insertion sort. -/
def insertSorted {α : Type} (le : α → α → Bool) (a : α) : List α → List α
  | [] => [a]
  | b :: bs => if le b a then b :: insertSorted le a bs else a :: b :: bs

/-- A stable sort (insertion sort): elements the comparison cannot separate
keep their original relative order, as pandas' stable sorting does. -/
def stableSort {α : Type} (le : α → α → Bool) : List α → List α
  | [] => []
  | a :: t => insertSorted le a (stableSort le t)

/-- pandas `Series.value_counts()`: one `(key, count)` pair per distinct
value, sorted by count descending; the underlying counting yields keys in
first-seen order and the sort is stable, so ties keep first-seen order. -/
def value_counts {α : Type} [DecidableEq α] (l : List α) : List (α × Nat) :=
  stableSort (fun p q => decide (q.2 ≤ p.2))
    ((firstSeenKeys l).map fun k => (k, l.count k))

/-- Summary metric `total_requests = len(df)` (src/app.py line 290). -/
def total_requests (df : List LogRecord) : Nat := df.length

/-- `filtered_df['status_code'].value_counts().sort_index()`
(src/app.py line 414): counts re-sorted ascending by status code. -/
def status_code_distribution (df : List LogRecord) : List (Nat × Nat) :=
  stableSort (fun p q => decide (p.1 ≤ q.1))
    (value_counts (df.map fun r => r.status_code))

/-- `filtered_df['bot_name'].value_counts()` (src/app.py line 388). -/
def bot_distribution (df : List LogRecord) : List (String × Nat) :=
  value_counts (df.map fun r => r.bot_name)

/-- `filtered_df['path'].value_counts().head(10).sort_values(ascending=True)`
(src/app.py line 451): the ten most frequent paths, re-sorted ascending by
count for the horizontal bar chart. -/
def top_paths (df : List LogRecord) : List (String × Nat) :=
  stableSort (fun p q => decide (p.2 ≤ q.2))
    ((value_counts (df.map fun r => r.path)).take 10)

/-! ### The spec's version of the grammar, for comparison -/

/-- The grammar of spec §4.2, stated from the spec's words for comparison
with the code's `LOG_PATTERN`: identical except that the timezone sign may
be either `+` or `-` (the spec writes `<space>` then a sign then `<tz4>`),
where the code has `\+`. -/
def SPEC_PATTERN : List Tok :=
  [ .digits 1 3, .lit ['.'], .digits 1 3, .lit ['.'],
    .digits 1 3, .lit ['.'], .digits 1 3,
    .lit (" - - [".data),
    .digits 2 2, .lit ['/'], .word 3, .lit ['/'], .digits 4 4,
    .lit [':'], .digits 2 2, .lit [':'], .digits 2 2,
    .lit [':'], .digits 2 2, .lit [' '],
    .alt (.lit ['+']) (.lit ['-']), .digits 4 4,
    .lit ("] \"".data),
    .alt (.lit "GET".data) (.alt (.lit "POST".data)
      (.alt (.lit "PUT".data) (.alt (.lit "DELETE".data)
        (.lit "HEAD".data)))),
    .spaceOne,
    .lazyPlus,
    .spaceOne, .lit "HTTP/".data, .digits 1 1, .lit ['.'],
    .digits 1 1, .lit ("\" ".data),
    .digits 3 3,
    .lit [' '],
    .alt .digitsPlus (.lit ['-']),
    .lit (" \"".data),
    .lazyStar,
    .lit ("\" \"".data),
    .lazyStar,
    .lit ['"'] ]

/-- Whether a line (after stripping, as the code strips before matching)
matches the grammar the spec states in §4.2. -/
def specLineMatches (l : List Char) : Bool :=
  (runToks SPEC_PATTERN (pyStrip l) fun _ rest => some rest).isSome

/-! ### Concrete inputs used in witnesses and counterexamples -/

/-- A stand-in for the external user-agent library in concrete evaluations:
never flags a bot, reports browser family "Other". -/
def stubUA : String → Bool × String := fun _ => (false, "Other")

/-- A well-formed combined-log line exercising every field. -/
def goodLine : List Char :=
  "1.2.3.4 - - [01/Aug/2025:10:00:01 +0000] \"GET / HTTP/1.1\" 200 1 \"-\" \"a\"".data

/-- The record `goodLine` parses to (under `stubUA`). -/
def goodRec : LogRecord :=
  { timestamp := ⟨2025, 8, 1, 10, 0, 1, 0⟩
    ip_address := "1.2.3.4"
    method := "GET"
    path := "/"
    status_code := 200
    bytes_sent := 1
    referrer := "-"
    user_agent := "a"
    is_bot := false
    bot_name := "Human"
    date := ⟨2025, 8, 1⟩
    hour := 10 }

/-- The capture groups `goodLine` matches to. -/
def goodGroups : LogGroups :=
  { ip := "1.2.3.4".data
    timestamp := "01/Aug/2025:10:00:01 +0000".data
    method := "GET".data
    path := "/".data
    status := "200".data
    bytes := "1".data
    referrer := "-".data
    user_agent := "a".data }

/-- The spec §8 end-to-end example line. -/
def specExampleLine : List Char :=
  "203.0.113.5 - - [01/Aug/2025:10:00:01 +0000] \"GET /index.html HTTP/1.1\" 200 1024 \"http://example.com/\" \"Mozilla/5.0 (compatible; Googlebot/2.1; +http://www.google.com/bot.html)\"".data

/-- `goodLine` with a `-` timezone sign: conforms to the spec's grammar, and
its date field conforms to the date format, but the code's regex rejects
it. -/
def negTzLine : List Char :=
  "1.2.3.4 - - [01/Aug/2025:10:00:01 -0500] \"GET / HTTP/1.1\" 200 1 \"-\" \"a\"".data

/-- `goodLine` with a month abbreviation that is no month: the regex matches
(`\w{3}`), the date conversion fails. -/
def badMonthLine : List Char :=
  "1.2.3.4 - - [01/Xxx/2025:10:00:01 +0000] \"GET / HTTP/1.1\" 200 1 \"-\" \"a\"".data

/-- `goodLine` with a literal `-` bytes field. -/
def dashBytesLine : List Char :=
  "1.2.3.4 - - [01/Aug/2025:10:00:01 +0000] \"GET / HTTP/1.1\" 200 - \"-\" \"a\"".data

/-- `goodLine` with a non-digit, non-dash bytes field. -/
def badBytesLine : List Char :=
  "1.2.3.4 - - [01/Aug/2025:10:00:01 +0000] \"GET / HTTP/1.1\" 200 xy \"-\" \"a\"".data

/-- A line that matches nothing of the grammar. -/
def badLine : List Char := "not a log line".data

/-- `goodRec` moved one day later, for the date-filter counterexample. -/
def nextDayRec : LogRecord :=
  { goodRec with
    timestamp := ⟨2025, 8, 2, 10, 0, 1, 0⟩
    date := ⟨2025, 8, 2⟩ }

/-- Criteria selecting only 2025-08-01, with both dropdowns on "All". -/
def narrowCriteria : FilterCriteria :=
  { start_date := ⟨2025, 8, 1⟩
    end_date := ⟨2025, 8, 1⟩
    bot_filter := none
    status_filter := none }

/-- `goodRec` requesting a given path. -/
def pathRec (p : String) : LogRecord := { goodRec with path := p }

/-- A second well-formed line with different field shapes: POST method, a
path containing spaces, HTTP/2.0, a dash bytes field, a nonempty referrer, a
leap-day date and a non-zero timezone offset. -/
def postLine : List Char :=
  "9.8.7.6 - - [29/Feb/2024:23:59:59 +0930] \"POST /a b?q=1 HTTP/2.0\" 404 - \"ref\" \"Mozilla/5.0 x\"".data

/-- The record `postLine` parses to (under `stubUA`). -/
def postRec : LogRecord :=
  { timestamp := ⟨2024, 2, 29, 23, 59, 59, 570⟩
    ip_address := "9.8.7.6"
    method := "POST"
    path := "/a b?q=1"
    status_code := 404
    bytes_sent := 0
    referrer := "ref"
    user_agent := "Mozilla/5.0 x"
    is_bot := false
    bot_name := "Human"
    date := ⟨2024, 2, 29⟩
    hour := 23 }

/-- The capture groups `badMonthLine` matches to (the regex accepts the
month field `Xxx`). -/
def badMonthGroups : LogGroups :=
  { goodGroups with timestamp := "01/Xxx/2025:10:00:01 +0000".data }

/-! ## Theorems -/

/-! ### Soundness of the backtracking matcher: whenever it succeeds, every
token's capture has the shape the token demands, and the captures concatenate
to the consumed input. -/

theorem orElse_eq_some_imp {σ : Type} {a b : Option σ} {x : σ}
    (h : (a <|> b) = some x) : a = some x ∨ b = some x := by
  cases a with
  | none => right; simpa using h
  | some y => left; simpa using h

theorem matchLit_sound :
    ∀ (s l r : List Char), matchLit s l = some r → l = s ++ r := by
  intro s
  induction s with
  | nil => intro l r h; simpa [matchLit] using congrArg (Option.getD · []) h
  | cons p ps ih =>
    intro l r h
    cases l with
    | nil => simp [matchLit] at h
    | cons c cs =>
      unfold matchLit at h
      split at h
      · next hpc => simpa [hpc] using ih cs r h
      · cases h

theorem all_take_of_le_length_takeWhile {α : Type} {p : α → Bool} :
    ∀ (l : List α) (j : Nat), j ≤ (l.takeWhile p).length →
      (l.take j).all p = true := by
  intro l
  induction l with
  | nil => intro j h; simp
  | cons c cs ih =>
    intro j h
    cases j with
    | zero => simp
    | succ j' =>
      rw [List.takeWhile_cons] at h
      by_cases hc : p c
      · simp only [hc, if_true] at h
        simp only [List.take_succ_cons, List.all_cons, hc, Bool.true_and]
        exact ih j' (by simpa using h)
      · simp [hc] at h

theorem tryTakes_sound {σ : Type} (l : List Char) (lo : Nat)
    (k : List Char → List Char → Option σ) (x : σ) :
    ∀ m, tryTakes l lo k m = some x →
      ∃ j, lo ≤ j ∧ j ≤ m ∧ k (l.take j) (l.drop j) = some x := by
  intro m
  induction m with
  | zero =>
    intro h
    unfold tryTakes at h
    split at h
    · next hlo => exact ⟨0, by omega, Nat.le_refl 0, by simpa using h⟩
    · cases h
  | succ m ih =>
    intro h
    unfold tryTakes at h
    rcases orElse_eq_some_imp h with h1 | h2
    · split at h1
      · next hlo => exact ⟨m + 1, hlo, Nat.le_refl _, h1⟩
      · cases h1
    · obtain ⟨j, h3, h4, h5⟩ := ih h2
      exact ⟨j, h3, Nat.le_succ_of_le h4, h5⟩

theorem lazyRun_sound {σ : Type} (k : List Char → List Char → Option σ)
    (x : σ) :
    ∀ (rest pre : List Char), lazyRun k pre rest = some x →
      ∃ mid r2, mid.all (fun c => !(c == '\n')) = true ∧ rest = mid ++ r2 ∧
        k (pre.reverse ++ mid) r2 = some x := by
  intro rest
  induction rest with
  | nil =>
    intro pre h
    simp only [lazyRun] at h
    exact ⟨[], [], rfl, rfl, by simpa using h⟩
  | cons c cs ih =>
    intro pre h
    simp only [lazyRun] at h
    rcases orElse_eq_some_imp h with h1 | h2
    · exact ⟨[], c :: cs, rfl, rfl, by simpa using h1⟩
    · split at h2
      · cases h2
      · next hnl =>
        have hnl' : (c == '\n') = false := by simpa using hnl
        obtain ⟨mid, r2, hall, heq, hk⟩ := ih (c :: pre) h2
        refine ⟨c :: mid, r2, ?_, by simp [heq], ?_⟩
        · simp only [List.all_cons, hall, Bool.and_true, hnl']
          rfl
        · simpa [List.reverse_cons, List.append_assoc] using hk

theorem runTok_sound {σ : Type} :
    ∀ (t : Tok) (l : List Char) (k : List Char → List Char → Option σ)
      (x : σ), runTok t l k = some x →
      ∃ s r, TokShape t s ∧ l = s ++ r ∧ k s r = some x := by
  intro t
  induction t with
  | lit s =>
    intro l k x h
    unfold runTok at h
    cases hm : matchLit s l with
    | none => rw [hm] at h; cases h
    | some r =>
      rw [hm] at h
      exact ⟨s, r, rfl, matchLit_sound s l r hm, h⟩
  | digits lo hi =>
    intro l k x h
    unfold runTok at h
    obtain ⟨j, hlo, hj, hk⟩ := tryTakes_sound l lo k x _ h
    have hjw : j ≤ (l.takeWhile isDigitChar).length :=
      hj.trans (Nat.min_le_right _ _)
    have hjl : j ≤ l.length :=
      hjw.trans (List.takeWhile_sublist isDigitChar).length_le
    have hlen : (l.take j).length = j := by
      rw [List.length_take]; omega
    refine ⟨l.take j, l.drop j,
      ⟨all_take_of_le_length_takeWhile l j hjw, ?_, ?_⟩,
      (List.take_append_drop j l).symm, hk⟩
    · omega
    · have := hj.trans (Nat.min_le_left hi _)
      omega
  | digitsPlus =>
    intro l k x h
    unfold runTok at h
    obtain ⟨j, hlo, hj, hk⟩ := tryTakes_sound l 1 k x _ h
    have hjl : j ≤ l.length :=
      hj.trans (List.takeWhile_sublist isDigitChar).length_le
    have hlen : (l.take j).length = j := by
      rw [List.length_take]; omega
    refine ⟨l.take j, l.drop j,
      ⟨all_take_of_le_length_takeWhile l j hj, ?_⟩,
      (List.take_append_drop j l).symm, hk⟩
    intro hnil
    rw [hnil] at hlen
    simp at hlen
    omega
  | word n =>
    intro l k x h
    simp only [runTok] at h
    split at h
    · next hc =>
      simp only [Bool.and_eq_true, beq_iff_eq] at hc
      exact ⟨l.take n, l.drop n, ⟨hc.2, hc.1⟩,
        (List.take_append_drop n l).symm, h⟩
    · cases h
  | spaceOne =>
    intro l k x h
    cases l with
    | nil => simp only [runTok] at h; cases h
    | cons c cs =>
      simp only [runTok] at h
      split at h
      · next hc => exact ⟨[c], cs, ⟨c, rfl, hc⟩, rfl, h⟩
      · cases h
  | lazyStar =>
    intro l k x h
    unfold runTok at h
    obtain ⟨mid, r2, hall, heq, hk⟩ := lazyRun_sound k x l [] h
    exact ⟨mid, r2, hall, heq, by simpa using hk⟩
  | lazyPlus =>
    intro l k x h
    cases l with
    | nil => simp only [runTok] at h; cases h
    | cons c cs =>
      simp only [runTok] at h
      split at h
      · cases h
      · next hnl =>
        have hnl' : (c == '\n') = false := by simpa using hnl
        obtain ⟨mid, r2, hall, heq, hk⟩ := lazyRun_sound k x cs [c] h
        refine ⟨c :: mid, r2, ⟨?_, by simp⟩, by simp [heq], by simpa using hk⟩
        simp only [List.all_cons, hall, Bool.and_true, hnl']
        rfl
  | alt a b iha ihb =>
    intro l k x h
    unfold runTok at h
    rcases orElse_eq_some_imp h with h1 | h2
    · obtain ⟨s, r, hs, hd, hk⟩ := iha l k x h1
      exact ⟨s, r, Or.inl hs, hd, hk⟩
    · obtain ⟨s, r, hs, hd, hk⟩ := ihb l k x h2
      exact ⟨s, r, Or.inr hs, hd, hk⟩

theorem runToks_sound {σ : Type} :
    ∀ (ts : List Tok) (l : List Char)
      (k : List (List Char) → List Char → Option σ) (x : σ),
      runToks ts l k = some x →
      ∃ caps rest, List.Forall₂ TokShape ts caps ∧
        l = caps.flatten ++ rest ∧ k caps rest = some x := by
  intro ts
  induction ts with
  | nil =>
    intro l k x h
    exact ⟨[], l, List.Forall₂.nil, by simp, h⟩
  | cons t ts ih =>
    intro l k x h
    unfold runToks at h
    obtain ⟨s, r, hshape, hdec, hk⟩ := runTok_sound t l _ x h
    obtain ⟨caps, rest, hf, hdec2, hk2⟩ := ih r _ x hk
    exact ⟨s :: caps, rest, List.Forall₂.cons hshape hf,
      by simp [hdec, hdec2, List.append_assoc], hk2⟩

theorem forall2_getD {R : Tok → List Char → Prop} :
    ∀ {ts : List Tok} {caps : List (List Char)}, List.Forall₂ R ts caps →
      ∀ i, i < ts.length → R (ts.getD i (.lit [])) (caps.getD i []) := by
  intro ts caps h
  induction h with
  | nil => intro i hi; simp at hi
  | cons hR hrest ih =>
    intro i hi
    cases i with
    | zero => simpa using hR
    | succ i =>
      simp only [List.getD_cons_succ]
      exact ih i (by simpa using hi)

/-- Whenever `LOG_PATTERN.match` succeeds, the status group is exactly three
digits and the bytes group is either the literal dash or a nonempty run of
digits. -/
theorem logMatch_shapes (l : List Char) (g : LogGroups) (rest : List Char)
    (h : logMatch l = some (g, rest)) :
    (g.status.all isDigitChar = true ∧ g.status.length = 3) ∧
    (g.bytes = ['-'] ∨ (g.bytes.all isDigitChar = true ∧ g.bytes ≠ [])) := by
  unfold logMatch at h
  obtain ⟨caps, rest2, hf, _, hk⟩ := runToks_sound LOG_PATTERN l _ _ h
  have hg : g = mkGroups caps := by
    injection hk with hk'
    exact (congrArg Prod.fst hk').symm
  have h31 := forall2_getD hf 31 (by decide)
  have h33 := forall2_getD hf 33 (by decide)
  have e31 : LOG_PATTERN.getD 31 (.lit []) = Tok.digits 3 3 := rfl
  have e33 : LOG_PATTERN.getD 33 (.lit []) =
      Tok.alt Tok.digitsPlus (Tok.lit ['-']) := rfl
  rw [e31] at h31
  rw [e33] at h33
  have hst : g.status = caps.getD 31 [] := by rw [hg]; rfl
  have hby : g.bytes = caps.getD 33 [] := by rw [hg]; rfl
  constructor
  · obtain ⟨hd, hlo, hhi⟩ := h31
    rw [hst]
    exact ⟨hd, by omega⟩
  · rw [hby]
    rcases h33 with hdig | hdash
    · exact Or.inr hdig
    · exact Or.inl hdash

/-! ### Claims C5 and C6: classification -/

/-- C5: `is_bot` comes solely from the generic user-agent library's verdict,
never from the signature table; a user agent containing the table signature
"Googlebot" is named "Google" even when the library says it is not a bot, so a
record can carry a named-bot `bot_name` with `is_bot = false`; such a record
is excluded from the bot-request summary count. -/
theorem c5_isBot_library_only (f : String → Bool × String) (ua : String) :
    (classify f ua).1 = (f ua).1 ∧
    (containsSub ua "Googlebot" = true →
      (f ua).1 = false → classify f ua = (false, "Google")) ∧
    (∀ (r : LogRecord) (df : List LogRecord), r.is_bot = false →
      bot_requests (r :: df) = bot_requests df) := by
  refine ⟨rfl, ?_, ?_⟩
  · intro hg hb
    simp [classify, hg, hb]
  · intro r df hr
    simp [bot_requests, hr]

/-- C5 witness: with a library stub that never flags a bot, the user agent
"Googlebot" classifies as `(false, "Google")`, and the corresponding record
does not count as a bot request. -/
theorem c5_isBot_library_only_witness :
    classify (fun _ => (false, "Chrome")) "Googlebot" = (false, "Google") ∧
    bot_requests [googleNotBotRec] = bot_requests [] :=
  ⟨(c5_isBot_library_only (fun _ => (false, "Chrome")) "Googlebot").2.1
      (by decide) rfl,
    (c5_isBot_library_only (fun _ => (false, "Chrome")) "Googlebot").2.2
      googleNotBotRec [] rfl⟩

/-- C6: the signature table is checked in one fixed priority order and the
first match wins: any user agent containing both "Googlebot" and "SEMrushBot"
is named "Google"; classification is a pure function of the user-agent
string, so identical input yields identical output. -/
theorem c6_priority_order (f : String → Bool × String) (ua : String)
    (h1 : containsSub ua "Googlebot" = true)
    (h2 : containsSub ua "SEMrushBot" = true) :
    (classify f ua).2 = "Google" ∧
    (∀ ua2, ua2 = ua → classify f ua2 = classify f ua) := by
  refine ⟨?_, ?_⟩
  · simp [classify, h1]
  · intro ua2 h
    rw [h]

/-- C6 witness: a user agent containing both signatures is named "Google". -/
theorem c6_priority_order_witness :
    (classify (fun _ => (true, "Spider")) "Googlebot SEMrushBot").2 =
      "Google" :=
  (c6_priority_order (fun _ => (true, "Spider")) "Googlebot SEMrushBot"
      (by decide) (by decide)).1

/-! ### Claim C4: malformed lines are skipped, never abort the batch -/

theorem parse_log_file_append (f : String → Bool × String) :
    ∀ (a b : List (List Char)),
      parse_log_file f (a ++ b) =
        parse_log_file f a ++ parse_log_file f b := by
  intro a b
  induction a with
  | nil => simp [parse_log_file]
  | cons l ls ih =>
    simp only [List.cons_append, parse_log_file]
    cases parseLine f l <;> simp [ih]

/-- C4: a batch of N lines of which K are malformed (the per-line parse
yields nothing) produces exactly N − K records; a malformed line contributes
no record and does not abort processing of the remaining lines. -/
theorem c4_malformed_lines_skipped (f : String → Bool × String)
    (lines : List (List Char)) :
    (parse_log_file f lines).length =
      lines.length - (lines.countP fun l => (parseLine f l).isNone) ∧
    (∀ pre bad post, lines = pre ++ bad :: post → parseLine f bad = none →
      parse_log_file f lines =
        parse_log_file f pre ++ parse_log_file f post) := by
  constructor
  · induction lines with
    | nil => simp [parse_log_file]
    | cons l ls ih =>
      have hle : (ls.countP fun l => (parseLine f l).isNone) ≤ ls.length :=
        List.countP_le_length _
      cases h : parseLine f l with
      | none =>
        have e1 : parse_log_file f (l :: ls) = parse_log_file f ls := by
          simp [parse_log_file, h]
        have e2 : ((l :: ls).countP fun l => (parseLine f l).isNone) =
            (ls.countP fun l => (parseLine f l).isNone) + 1 := by
          simp [List.countP_cons, h]
        rw [e1, e2, ih, List.length_cons]
        omega
      | some r =>
        have e1 : parse_log_file f (l :: ls) = r :: parse_log_file f ls := by
          simp [parse_log_file, h]
        have e2 : ((l :: ls).countP fun l => (parseLine f l).isNone) =
            (ls.countP fun l => (parseLine f l).isNone) := by
          simp [List.countP_cons, h]
        rw [e1, e2, List.length_cons, ih, List.length_cons]
        omega
  · intro pre bad post hsplit hbad
    subst hsplit
    rw [parse_log_file_append]
    have : parse_log_file f (bad :: post) = parse_log_file f post := by
      simp [parse_log_file, hbad]
    rw [this]

/-- C4 witness: one good line and one malformed line yield 2 − 1 records,
and the malformed line splits away without affecting the rest. -/
theorem c4_malformed_lines_skipped_witness :
    (parse_log_file stubUA [goodLine, badLine]).length = 2 - 1 ∧
    parse_log_file stubUA [goodLine, badLine] =
      parse_log_file stubUA [goodLine] ++ parse_log_file stubUA [] := by
  have h := c4_malformed_lines_skipped stubUA [goodLine, badLine]
  refine ⟨?_, h.2 [goodLine] badLine [] rfl (by decide)⟩
  rw [h.1]
  decide

/-! ### Claim C8: zero records from a non-empty input is an explicit,
visible hard-failure state -/

/-- C8: if every line of a non-empty input fails to parse, ingestion yields
the explicit "no valid entries" error state (not a crash), whose message is
distinct from the later non-fatal "no data matches the selected filters"
message. -/
theorem c8_empty_ingest_hard_failure (f : String → Bool × String)
    (lines : List (List Char)) (hne : lines ≠ [])
    (hempty : parse_log_file f lines = []) :
    ingest f lines = .noValidEntries NO_VALID_MESSAGE ∧
    NO_VALID_MESSAGE ≠ NO_FILTER_MATCH_MESSAGE := by
  refine ⟨?_, by decide⟩
  unfold ingest
  simp [hempty]

/-- C8 witness: a single unparsable line triggers the error state. -/
theorem c8_empty_ingest_hard_failure_witness :
    ingest stubUA [badLine] = .noValidEntries NO_VALID_MESSAGE ∧
    NO_VALID_MESSAGE ≠ NO_FILTER_MATCH_MESSAGE :=
  c8_empty_ingest_hard_failure stubUA [badLine] (by decide) (by decide)

/-! ### Claim C1: what set is actually displayed after "Apply Filters" -/

/-- C1: the filter expression itself (src/app.py lines 338-347) returns
exactly the matching subsequence, but the set used for display and export
after clicking "Apply Filters" is the unfiltered frame: line 352 overwrites
the freshly stored filtered frame because the guard at line 350 is also true
when `apply_filters` is. Evaluated at a two-record frame and a one-day
criteria range. -/
theorem c1_filter_result_clobbered :
    applyFiltersExpr [goodRec, nextDayRec] narrowCriteria = [goodRec] ∧
    displayedAfterApply [goodRec, nextDayRec] narrowCriteria =
      [goodRec, nextDayRec] ∧
    displayedAfterApply [goodRec, nextDayRec] narrowCriteria ≠
      applyFiltersExpr [goodRec, nextDayRec] narrowCriteria := by
  refine ⟨by decide, rfl, by decide⟩

/-! ### Claim C3: the grammar's date field and the timezone sign -/

/-- C3 counterexample: a line conforming to the spec §4.2 grammar with a `-`
timezone sign, whose date field conforms to the date format, still fails the
code's parse — `LOG_PATTERN` (src/app.py line 14) accepts only `\+`. -/
theorem c3_counterexample_negative_tz :
    specLineMatches negTzLine = true ∧
    (strptimeLog "01/Aug/2025:10:00:01 -0500".data).isSome = true ∧
    parseLine stubUA negTzLine = none := by
  refine ⟨by decide, by decide, by decide⟩

/-- C3 (amended): for every line the code's grammar matches — its timezone
sign necessarily `+` — the parse produces a record exactly when the bracketed
date field parses under `day/mon-abbrev/year:HH:MM:SS +ZZZZ`; when the date
conversion fails the line fails parsing even though the grammar matched. -/
theorem c3_parse_iff_date_ok (f : String → Bool × String)
    (l : List Char) (g : LogGroups) (rest : List Char)
    (hm : logMatch (pyStrip l) = some (g, rest)) :
    (∀ ts, strptimeLog g.timestamp = some ts →
      ∃ r, parseLine f l = some r ∧ r.timestamp = ts) ∧
    (strptimeLog g.timestamp = none → parseLine f l = none) := by
  obtain ⟨⟨hsd, hsl⟩, hbytes⟩ := logMatch_shapes _ _ _ hm
  constructor
  · intro ts hts
    have hsne : g.status ≠ [] := by
      intro hnil
      rw [hnil] at hsl
      simp at hsl
    have hstat : parseNat g.status = some (natOfDigits g.status) := by
      simp [parseNat, hsne, hsd]
    unfold parseLine parseStripped
    rw [hm]
    dsimp only
    rw [hts, hstat]
    dsimp only
    rcases hbytes with hdash | ⟨hbd, hbne⟩
    · rw [if_pos hdash]
      exact ⟨_, rfl, rfl⟩
    · have hbyt : parseNat g.bytes = some (natOfDigits g.bytes) := by
        simp [parseNat, hbne, hbd]
      by_cases hd : g.bytes = ['-']
      · rw [if_pos hd]
        exact ⟨_, rfl, rfl⟩
      · rw [if_neg hd, hbyt]
        exact ⟨_, rfl, rfl⟩
  · intro hts
    unfold parseLine parseStripped
    rw [hm]
    dsimp only
    rw [hts]

/-- C3 witness: `goodLine` parses with its date, and `badMonthLine` — whose
month abbreviation is no month — fails although the grammar matched. -/
theorem c3_parse_iff_date_ok_witness :
    (∃ r, parseLine stubUA goodLine = some r ∧
      r.timestamp = (⟨2025, 8, 1, 10, 0, 1, 0⟩ : PyDatetime)) ∧
    parseLine stubUA badMonthLine = none := by
  constructor
  · exact (c3_parse_iff_date_ok stubUA goodLine goodGroups [] (by decide)).1
      ⟨2025, 8, 1, 10, 0, 1, 0⟩ (by decide)
  · exact (c3_parse_iff_date_ok stubUA badMonthLine badMonthGroups []
      (by decide)).2 (by decide)

/-! ### Claim C9: the bytes field -/

/-- C9: whenever the grammar matches, the bytes group is either the literal
dash or a nonempty digit run; a dash converts to `bytes_sent = 0`, digits
convert to their value, and a non-digit bytes field fails the whole line. -/
theorem c9_bytes_conversion :
    (∀ l g rest, logMatch l = some (g, rest) →
      g.bytes = ['-'] ∨ (g.bytes.all isDigitChar = true ∧ g.bytes ≠ [])) ∧
    (parseLine stubUA dashBytesLine).map (fun r => r.bytes_sent) = some 0 ∧
    (parseLine stubUA specExampleLine).map (fun r => r.bytes_sent) =
      some 1024 ∧
    parseLine stubUA badBytesLine = none := by
  refine ⟨fun l g rest h => (logMatch_shapes l g rest h).2,
    by decide, by decide, by decide⟩

/-- C9 witness: the shape guarantee applied at `goodLine`'s match. -/
theorem c9_bytes_conversion_witness :
    goodGroups.bytes = ['-'] ∨
      (goodGroups.bytes.all isDigitChar = true ∧ goodGroups.bytes ≠ []) :=
  c9_bytes_conversion.1 goodLine goodGroups [] (by decide)

/-! ### Claim C10: the match is anchored only at the start -/

theorem dropWhile_append_no_strip {α : Type} {p : α → Bool} {xs : List α}
    (h : xs.dropWhile p = xs) (hne : xs.isEmpty = false) (ys : List α) :
    (xs ++ ys).dropWhile p = xs ++ ys := by
  rw [List.dropWhile_append, h]
  simp [hne]

theorem parseStripped_goodLine_ext (z : List Char) :
    parseStripped stubUA (goodLine ++ z) = some goodRec := rfl

theorem parseStripped_postLine_ext (z : List Char) :
    parseStripped stubUA (postLine ++ z) = some postRec := rfl

theorem parseLine_append_of_parseStripped {f : String → Bool × String}
    {l0 : List Char} {r : LogRecord}
    (hds : l0.dropWhile isPySpace = l0) (hne : l0.isEmpty = false)
    (hrev : l0.reverse.dropWhile isPySpace = l0.reverse)
    (hmain : ∀ z, parseStripped f (l0 ++ z) = some r) :
    ∀ ext, parseLine f (l0 ++ ext) = some r := by
  intro ext
  unfold parseLine pyStrip
  rw [dropWhile_append_no_strip hds hne ext]
  rw [List.reverse_append]
  rw [List.dropWhile_append]
  split
  · rw [hrev, List.reverse_reverse]
    simpa using hmain []
  · rw [List.reverse_append, List.reverse_reverse]
    exact hmain _

/-- C10: `LOG_PATTERN.match` anchors at the start only: appending arbitrary
extra characters after the closing user-agent quote of a well-formed line
still parses, producing the record of the well-formed prefix — shown for two
lines jointly exercising every field shape of the grammar. -/
theorem c10_prefix_match :
    (∀ ext, parseLine stubUA (goodLine ++ ext) = some goodRec) ∧
    (∀ ext, parseLine stubUA (postLine ++ ext) = some postRec) :=
  ⟨parseLine_append_of_parseStripped (by decide) (by decide) (by decide)
      parseStripped_goodLine_ext,
    parseLine_append_of_parseStripped (by decide) (by decide) (by decide)
      parseStripped_postLine_ext⟩

/-! ### Claims C7 and C2: aggregation -/

theorem mem_firstSeenKeysF {α : Type} [DecidableEq α] :
    ∀ (n : Nat) (l : List α) (k : α), k ∈ firstSeenKeysF n l → k ∈ l := by
  intro n
  induction n with
  | zero =>
    intro l k hk
    cases l <;> simp [firstSeenKeysF] at hk
  | succ n ih =>
    intro l k hk
    cases l with
    | nil => simp [firstSeenKeysF] at hk
    | cons a t =>
      simp only [firstSeenKeysF] at hk
      rcases List.mem_cons.mp hk with rfl | hk2
      · exact List.mem_cons_self _ _
      · exact List.mem_cons_of_mem _ (List.mem_of_mem_filter (ih _ k hk2))

theorem count_add_length_filter_ne {α : Type} [DecidableEq α]
    (t : List α) (a : α) :
    t.count a + (t.filter fun x => !(x == a)).length = t.length := by
  induction t with
  | nil => simp
  | cons b bs ih =>
    by_cases hb : b = a
    · subst hb
      simp only [List.count_cons_self, List.filter_cons, beq_self_eq_true,
        Bool.not_true, Bool.false_eq_true, if_false, List.length_cons]
      omega
    · have hba : (b == a) = false := beq_eq_false_iff_ne.mpr hb
      simp only [List.count_cons_of_ne (Ne.symm hb), List.filter_cons, hba,
        Bool.not_false, if_true, List.length_cons]
      omega

theorem sum_counts_firstSeenKeysF {α : Type} [DecidableEq α] :
    ∀ (n : Nat) (l : List α), l.length ≤ n →
      ((firstSeenKeysF n l).map fun k => l.count k).sum = l.length := by
  intro n
  induction n with
  | zero =>
    intro l h
    cases l with
    | nil => simp [firstSeenKeysF]
    | cons a t => simp at h
  | succ n ih =>
    intro l h
    cases l with
    | nil => simp [firstSeenKeysF]
    | cons a t =>
      have hF : (t.filter fun x => !(x == a)).length ≤ n := by
        have h1 := List.length_filter_le (fun x => !(x == a)) t
        simp only [List.length_cons] at h
        omega
      have hkey : ∀ k ∈ firstSeenKeysF n (t.filter fun x => !(x == a)),
          (a :: t).count k = (t.filter fun x => !(x == a)).count k := by
        intro k hk
        have hkF := mem_firstSeenKeysF n _ k hk
        have hp := List.of_mem_filter hkF
        have hne : (k == a) = false := by simpa using hp
        have hne' : (a == k) = false := by
          simp only [beq_eq_false_iff_ne] at hne ⊢
          exact Ne.symm hne
        rw [List.count_cons, hne']
        simp [hp]
      simp only [firstSeenKeysF, List.map_cons, List.sum_cons]
      rw [List.map_congr_left hkey]
      rw [ih _ hF]
      rw [List.count_cons_self]
      have := count_add_length_filter_ne t a
      simp only [List.length_cons]
      omega

theorem insertSorted_perm {α : Type} (le : α → α → Bool) (a : α) :
    ∀ l : List α, (insertSorted le a l).Perm (a :: l) := by
  intro l
  induction l with
  | nil => exact List.Perm.refl _
  | cons b bs ih =>
    simp only [insertSorted]
    split
    · exact (ih.cons b).trans (List.Perm.swap a b bs)
    · exact List.Perm.refl _

theorem stableSort_perm {α : Type} (le : α → α → Bool) :
    ∀ l : List α, (stableSort le l).Perm l := by
  intro l
  induction l with
  | nil => exact List.Perm.refl _
  | cons a t ih =>
    simp only [stableSort]
    exact (insertSorted_perm le a _).trans (ih.cons a)

theorem insertSorted_pairwise {α : Type} {le : α → α → Bool}
    (htr : ∀ x y z, le x y = true → le y z = true → le x z = true)
    (hto : ∀ x y, le x y = true ∨ le y x = true) (a : α) :
    ∀ l : List α, List.Pairwise (fun x y => le x y = true) l →
      List.Pairwise (fun x y => le x y = true) (insertSorted le a l) := by
  intro l
  induction l with
  | nil => intro _; exact List.pairwise_singleton _ a
  | cons b bs ih =>
    intro hp
    rcases List.pairwise_cons.mp hp with ⟨hb, hbs⟩
    simp only [insertSorted]
    split
    · next hba =>
      refine List.pairwise_cons.mpr ⟨?_, ih hbs⟩
      intro x hx
      rcases List.mem_cons.mp ((insertSorted_perm le a bs).mem_iff.mp hx)
        with rfl | hxbs
      · exact hba
      · exact hb x hxbs
    · next hba =>
      have hab : le a b = true := by
        rcases hto a b with h | h
        · exact h
        · exact absurd h hba
      refine List.pairwise_cons.mpr ⟨?_, hp⟩
      intro x hx
      rcases List.mem_cons.mp hx with rfl | hxbs
      · exact hab
      · exact htr a b x hab (hb x hxbs)

theorem stableSort_pairwise {α : Type} {le : α → α → Bool}
    (htr : ∀ x y z, le x y = true → le y z = true → le x z = true)
    (hto : ∀ x y, le x y = true ∨ le y x = true) :
    ∀ l : List α, List.Pairwise (fun x y => le x y = true)
      (stableSort le l) := by
  intro l
  induction l with
  | nil => exact List.Pairwise.nil
  | cons a t ih =>
    simp only [stableSort]
    exact insertSorted_pairwise htr hto a _ ih

theorem sum_value_counts {α : Type} [DecidableEq α] (l : List α) :
    ((value_counts l).map (fun p => p.2)).sum = l.length := by
  unfold value_counts
  have hperm := stableSort_perm (fun p q : α × Nat => decide (q.2 ≤ p.2))
    ((firstSeenKeys l).map fun k => (k, l.count k))
  rw [(hperm.map (fun p : α × Nat => p.2)).sum_eq]
  rw [List.map_map]
  exact sum_counts_firstSeenKeysF l.length l (Nat.le_refl _)

/-- C7: the summary total request count equals the sum of the status-code
distribution counts and equals the sum of the bot-distribution counts, for
any record subsequence. -/
theorem c7_sum_consistency (df : List LogRecord) :
    ((status_code_distribution df).map (fun p => p.2)).sum =
      total_requests df ∧
    ((bot_distribution df).map (fun p => p.2)).sum = total_requests df := by
  constructor
  · unfold status_code_distribution total_requests
    have hperm := stableSort_perm (fun p q : Nat × Nat => decide (p.1 ≤ q.1))
      (value_counts (df.map fun r => r.status_code))
    rw [(hperm.map (fun p : Nat × Nat => p.2)).sum_eq]
    rw [sum_value_counts, List.length_map]
  · unfold bot_distribution total_requests
    rw [sum_value_counts, List.length_map]

/-- C2 counterexample: with paths `/a`, `/a`, `/b` the top-paths view is
`[(/b, 1), (/a, 2)]` — sorted ascending by count (line 451 ends with
`sort_values(ascending=True)`), not descending as the claim states. -/
theorem c2_counterexample_ascending :
    top_paths [pathRec "/a", pathRec "/a", pathRec "/b"] =
      [("/b", 1), ("/a", 2)] ∧
    ¬ List.Pairwise (fun p q : String × Nat => q.2 ≤ p.2)
      (top_paths [pathRec "/a", pathRec "/a", pathRec "/b"]) := by
  refine ⟨by decide, by decide⟩

/-- C2 (amended): the top-paths view has at most 10 entries; the entries are
those of the first ten pairs of the count-descending `value_counts` (ties by
first-seen order), but the displayed sequence is re-sorted ascending by
count. -/
theorem c2_top_paths_shape (df : List LogRecord) :
    (top_paths df).length ≤ 10 ∧
    List.Pairwise (fun p q : String × Nat => p.2 ≤ q.2) (top_paths df) ∧
    (top_paths df).Perm
      ((value_counts (df.map fun r => r.path)).take 10) := by
  refine ⟨?_, ?_, stableSort_perm _ _⟩
  · unfold top_paths
    rw [(stableSort_perm _ _).length_eq]
    exact List.length_take_le _ _
  · unfold top_paths
    have hs := @stableSort_pairwise (String × Nat)
      (fun p q => decide (p.2 ≤ q.2))
      (fun x y z hxy hyz => by
        simp only [decide_eq_true_eq] at hxy hyz ⊢
        omega)
      (fun x y => by
        rcases Nat.le_total x.2 y.2 with h | h
        · exact Or.inl (by simpa using h)
        · exact Or.inr (by simpa using h))
      ((value_counts (df.map fun r => r.path)).take 10)
    exact hs.imp fun h => by simpa using h
